import Mathlib

/-!
Shallow embedding of the scoring core of the llm-defender-subnet validator
(src/llm_defender/core/validators/validator.py, class PromptInjectionValidator),
together with the main validation loop's repeated invocation of
process_responses (src/prompt_defender/prompt_injection/validator/validator.py).

Python floats are modelled as exact rationals; the mutable tensor
self.scores is modelled as a function from UID to rational, threaded
explicitly through the state-updating operations.
-/

namespace LlmDefender

/-- One element of the list stored under the key engines in a miner's
deserialized output dict: the code reads engine["confidence"] from it. -/
structure EngineOutput where
  confidence : ℚ
deriving DecidableEq

/-- The deserialized output dict of a non-empty miner response
(response.output in the Python code).  The code reads response["engines"]
from it, and also applies len(response) to the dict itself, which counts
its top-level keys.  We record the engines list and the number of
top-level keys OTHER than the key engines, so that the Python value
len(response) is numOtherKeys + 1. -/
structure ResponseOutput where
  engines : List EngineOutput
  numOtherKeys : Nat
deriving DecidableEq

/-- The Python value len(response) for the output dict: one key for
engines plus the other top-level keys. -/
def ResponseOutput.dictLen (r : ResponseOutput) : Nat :=
  r.numOtherKeys + 1

/-- One entry of the responses list handed to process_responses: the
output payload (none models a falsy response.output, i.e. an empty
response) and response.dendrite.process_time.  The hotkey field is used
only for logging and is omitted. -/
structure SynapseResponse where
  output : Option ResponseOutput
  process_time : ℚ
deriving DecidableEq

/-- The configuration attributes of PromptInjectionValidator that the
scoring core reads: self.max_engines (3), self.timeout (12) and
self.neuron_config.alpha (command-line option, default 0.9). -/
structure Validator where
  max_engines : ℚ
  timeout : ℚ
  alpha : ℚ
deriving DecidableEq

/-- The validator with the values fixed in __init__ (max_engines = 3,
timeout = 12) and a given alpha. -/
def initValidator (alpha : ℚ) : Validator :=
  { max_engines := 3, timeout := 12, alpha := alpha }

/-- Lines 204-210 of calculate_score: per-engine distances
abs(target - confidence), then
distance_score = 1 - sum(distances)/len(distances) if len(distances) > 0 else 1.0. -/
def distance_score (target : ℚ) (r : ResponseOutput) : ℚ :=
  let distances := r.engines.map (fun engine => |target - engine.confidence|)
  if 0 < distances.length then 1 - distances.sum / (distances.length : ℚ) else 1

/-- Lines 216-222 of calculate_score: response_time is set to the timeout
when it exceeds it, then speed_score = 1.0 - response_time / self.timeout. -/
def speed_score (v : Validator) (response_time : ℚ) : ℚ :=
  let rt := if response_time > v.timeout then v.timeout else response_time
  1 - rt / v.timeout

/-- Line 225 of calculate_score: engine_score = len(response) / self.max_engines.
Note that response here is the whole output dict, so len(response) is its
number of top-level keys (ResponseOutput.dictLen), not the number of engines. -/
def engine_score (v : Validator) (r : ResponseOutput) : ℚ :=
  (r.dictLen : ℚ) / v.max_engines

/-- The engine-count term as the specification describes it:
(number of engines used) / max_engines.  Kept separate so that it can be
compared with the engine_score the code actually computes. -/
def engine_score_from_spec (v : Validator) (r : ResponseOutput) : ℚ :=
  (r.engines.length : ℚ) / v.max_engines

/-- Lines 193-261: PromptInjectionValidator.calculate_score.  Computes the
three sub-scores, returns 0.0 if any of them is outside [0, 1], otherwise
blends them with weights 0.7 / 0.2 / 0.1 and returns 0.0 again if the
blend escapes [0, 1]. -/
def calculate_score (v : Validator) (r : ResponseOutput) (target response_time : ℚ) : ℚ :=
  let ds := distance_score target r
  let ss := speed_score v response_time
  let es := engine_score v r
  if ¬(0 ≤ ds ∧ ds ≤ 1) ∨ ¬(0 ≤ ss ∧ ss ≤ 1) ∨ ¬(0 ≤ es ∧ es ≤ 1) then
    0
  else
    let score := 0.7 * ds + 0.2 * ss + 0.1 * es
    if 1 < score ∨ score < 0 then 0 else score

/-- The per-round score of one response as process_responses uses it:
0.0 for an empty response (lines 163-174, no call to the calculator),
and calculate_score(response.output, ...) otherwise (lines 176-182). -/
def round_score (v : Validator) (target : ℚ) (resp : SynapseResponse) : ℚ :=
  match resp.output with
  | none => 0
  | some out => calculate_score v out target resp.process_time

/-- The body of the loop in process_responses (lines 158-191) for one
(uid, response) pair: both branches write
alpha * scores[uid] + (1 - alpha) * round into scores[uid], where round is
0.0 for an empty response and the calculator's result otherwise. -/
def process_one (v : Validator) (target : ℚ) (scores : Nat → ℚ)
    (p : Nat × SynapseResponse) : Nat → ℚ :=
  match p.2.output with
  | none =>
      Function.update scores p.1 (v.alpha * scores p.1 + (1 - v.alpha) * 0)
  | some out =>
      Function.update scores p.1
        (v.alpha * scores p.1 +
          (1 - v.alpha) * calculate_score v out target p.2.process_time)

/-- Lines 151-154 of process_responses: the target is 1.0 when
query["data"]["isPromptInjection"] is True and 0.0 otherwise. -/
def target_of (isPromptInjection : Bool) : ℚ :=
  if isPromptInjection then 1 else 0

/-- Lines 141-191: PromptInjectionValidator.process_responses.  Iterates
over the responses paired with their UIDs and applies the per-pair score
update to self.scores. -/
def process_responses (v : Validator) (processed_uids : List Nat)
    (isPromptInjection : Bool) (responses : List SynapseResponse)
    (scores : Nat → ℚ) : Nat → ℚ :=
  (processed_uids.zip responses).foldl
    (process_one v (target_of isPromptInjection)) scores

/-- The data of one iteration of the main validation loop that reaches
process_responses: the processed UIDs, the round's ground-truth flag and
the responses list. -/
structure Round where
  processed_uids : List Nat
  isPromptInjection : Bool
  responses : List SynapseResponse

/-- The main validation loop of the prompt_defender validator entry point,
restricted to its score updates: process_responses applied once per round. -/
def run_rounds (v : Validator) (rounds : List Round) (scores : Nat → ℚ) : Nat → ℚ :=
  rounds.foldl
    (fun s rd => process_responses v rd.processed_uids rd.isPromptInjection rd.responses s)
    scores

/-- Line 136 of initialize_neuron: self.scores = torch.zeros_like(...). -/
def initial_scores : Nat → ℚ := fun _ => 0

/-! ### Helper lemmas -/

/-- Blending three values of [0, 1] with the fixed weights 0.7, 0.2, 0.1
stays within [0, 1]. -/
theorem blend_mem_unit {d s e : ℚ} (hd : 0 ≤ d ∧ d ≤ 1) (hs : 0 ≤ s ∧ s ≤ 1)
    (he : 0 ≤ e ∧ e ≤ 1) :
    0 ≤ 0.7 * d + 0.2 * s + 0.1 * e ∧ 0.7 * d + 0.2 * s + 0.1 * e ≤ 1 := by
  obtain ⟨hd0, hd1⟩ := hd
  obtain ⟨hs0, hs1⟩ := hs
  obtain ⟨he0, he1⟩ := he
  constructor <;> nlinarith

/-- Whenever one of the three sub-scores escapes [0, 1], calculate_score
takes its first early-return branch. -/
theorem calculate_score_zero_of_oob (v : Validator) (r : ResponseOutput)
    (target rt : ℚ)
    (h : ¬(0 ≤ distance_score target r ∧ distance_score target r ≤ 1) ∨
         ¬(0 ≤ speed_score v rt ∧ speed_score v rt ≤ 1) ∨
         ¬(0 ≤ engine_score v r ∧ engine_score v r ≤ 1)) :
    calculate_score v r target rt = 0 := by
  simp only [calculate_score]
  exact if_pos h

/-- The result of calculate_score lies in [0, 1] unconditionally: every
branch returns either 0 or a blend that just passed the final bounds check. -/
theorem calculate_score_mem_unit (v : Validator) (r : ResponseOutput)
    (target rt : ℚ) :
    0 ≤ calculate_score v r target rt ∧ calculate_score v r target rt ≤ 1 := by
  simp only [calculate_score]
  split
  · norm_num
  · split
    · norm_num
    · next h2 =>
        push_neg at h2
        exact ⟨h2.2, h2.1⟩

/-! ### Claim theorems -/

/-- C1: the engine-count term of calculate_score does NOT equal the number
of engines divided by max_engines.  At a response whose output dict holds
exactly two engines under its single top-level key, the code computes
len(response) / max_engines = 1/3 (one dict key), while the number of
EngineResults divided by max_engines is 2/3.  The term counts top-level
dict keys, not engines, contradicting the comment directly above it in
the source (Calculate score for the number of engines used). -/
theorem engine_score_counts_dict_keys_not_engines :
    engine_score (initValidator (9/10)) ⟨[⟨1⟩, ⟨1⟩], 0⟩ = 1/3 ∧
    engine_score_from_spec (initValidator (9/10)) ⟨[⟨1⟩, ⟨1⟩], 0⟩ = 2/3 ∧
    engine_score (initValidator (9/10)) ⟨[⟨1⟩, ⟨1⟩], 0⟩ ≠
      engine_score_from_spec (initValidator (9/10)) ⟨[⟨1⟩, ⟨1⟩], 0⟩ := by
  refine ⟨?_, ?_, ?_⟩ <;>
    norm_num [engine_score, engine_score_from_spec, initValidator,
      ResponseOutput.dictLen]

/-- C2: for a well-typed non-empty response with target in {0, 1},
response_time ≥ 0, timeout > 0 and max_engines ≥ 1, calculate_score
returns a value in [0, 1]; moreover the final out-of-bounds branch is
unreachable: whenever the three sub-scores pass the first bounds check,
the blend 0.7·d + 0.2·s + 0.1·e is itself inside [0, 1], so the final
check's condition is false. -/
theorem calculate_score_bounded_final_branch_unreachable
    (v : Validator) (r : ResponseOutput) (target response_time : ℚ)
    (htarget : target = 0 ∨ target = 1) (hrt : 0 ≤ response_time)
    (hto : 0 < v.timeout) (hme : 1 ≤ v.max_engines) :
    (0 ≤ calculate_score v r target response_time ∧
      calculate_score v r target response_time ≤ 1) ∧
    ((0 ≤ distance_score target r ∧ distance_score target r ≤ 1) →
      (0 ≤ speed_score v response_time ∧ speed_score v response_time ≤ 1) →
      (0 ≤ engine_score v r ∧ engine_score v r ≤ 1) →
      ¬(1 < 0.7 * distance_score target r + 0.2 * speed_score v response_time +
            0.1 * engine_score v r ∨
        0.7 * distance_score target r + 0.2 * speed_score v response_time +
            0.1 * engine_score v r < 0)) := by
  refine ⟨calculate_score_mem_unit v r target response_time, ?_⟩
  intro hd hs he
  obtain ⟨hlo, hhi⟩ := blend_mem_unit hd hs he
  rintro (hgt | hlt)
  · linarith
  · linarith

/-- Witness for C2 at the spec's concrete scenario (target 1, one engine
of confidence 0.9, response_time 2, default timeout 12 and max_engines 3). -/
theorem calculate_score_bounded_final_branch_unreachable_witness :
    (0 ≤ calculate_score (initValidator (9/10)) ⟨[⟨9/10⟩], 0⟩ 1 2 ∧
      calculate_score (initValidator (9/10)) ⟨[⟨9/10⟩], 0⟩ 1 2 ≤ 1) ∧
    calculate_score (initValidator (9/10)) ⟨[⟨9/10⟩], 0⟩ 1 2 = 83/100 :=
  ⟨(calculate_score_bounded_final_branch_unreachable (initValidator (9/10))
      ⟨[⟨9/10⟩], 0⟩ 1 2 (Or.inr rfl) (by norm_num)
      (by norm_num [initValidator]) (by norm_num [initValidator])).1,
    by norm_num [calculate_score, distance_score, speed_score, engine_score,
      initValidator, ResponseOutput.dictLen, abs_of_nonneg, abs_of_nonpos]⟩

/-- C3: if any of the three intermediate sub-scores falls outside [0, 1],
calculate_score returns exactly 0. -/
theorem calculate_score_zero_on_oob_subscore (v : Validator)
    (r : ResponseOutput) (target rt : ℚ)
    (h : ¬(0 ≤ distance_score target r ∧ distance_score target r ≤ 1) ∨
         ¬(0 ≤ speed_score v rt ∧ speed_score v rt ≤ 1) ∨
         ¬(0 ≤ engine_score v r ∧ engine_score v r ≤ 1)) :
    calculate_score v r target rt = 0 :=
  calculate_score_zero_of_oob v r target rt h

/-- Witness for C3: an output dict with three extra top-level keys beside
engines gives engine_score = 4/3 > 1, and the result is 0. -/
theorem calculate_score_zero_on_oob_subscore_witness :
    calculate_score (initValidator (9/10)) ⟨[⟨1⟩], 3⟩ 1 2 = 0 :=
  calculate_score_zero_on_oob_subscore (initValidator (9/10)) ⟨[⟨1⟩], 3⟩ 1 2
    (Or.inr (Or.inr (by
      norm_num [engine_score, initValidator, ResponseOutput.dictLen])))

/-- C4: the speed term equals 1 - min(response_time, timeout)/timeout; it
is 1 when response_time = 0 and exactly 0 for every response_time at or
beyond the timeout, however large. -/
theorem speed_score_clamped (v : Validator) (rt : ℚ)
    (hrt : 0 ≤ rt) (hto : 0 < v.timeout) :
    speed_score v rt = 1 - min rt v.timeout / v.timeout ∧
    (rt = 0 → speed_score v rt = 1) ∧
    (v.timeout ≤ rt → speed_score v rt = 0) := by
  have hmin : (if rt > v.timeout then v.timeout else rt) = min rt v.timeout := by
    split
    · next h => exact (min_eq_right (le_of_lt h)).symm
    · next h => exact (min_eq_left (le_of_not_lt h)).symm
  refine ⟨?_, ?_, ?_⟩
  · simp only [speed_score]
    rw [hmin]
  · intro h0
    subst h0
    simp only [speed_score]
    rw [if_neg (not_lt.mpr (le_of_lt hto))]
    norm_num
  · intro hge
    simp only [speed_score]
    have hne : v.timeout ≠ 0 := ne_of_gt hto
    by_cases hgt : rt > v.timeout
    · rw [if_pos hgt, div_self hne]
      norm_num
    · rw [if_neg hgt, le_antisymm (le_of_not_lt hgt) hge, div_self hne]
      norm_num

/-- Witness for C4 at response_time 20 against the default timeout 12
(the spec's third concrete scenario). -/
theorem speed_score_clamped_witness :
    speed_score (initValidator (9/10)) 20 =
      1 - min 20 (initValidator (9/10)).timeout / (initValidator (9/10)).timeout ∧
    ((20 : ℚ) = 0 → speed_score (initValidator (9/10)) 20 = 1) ∧
    ((initValidator (9/10)).timeout ≤ 20 → speed_score (initValidator (9/10)) 20 = 0) :=
  speed_score_clamped (initValidator (9/10)) 20 (by norm_num)
    (by norm_num [initValidator])

/-- C10: a negative response_time is never clamped (the clamp only fires
above the timeout), so with a positive timeout the speed term exceeds 1
and the intermediate bounds check makes calculate_score return exactly 0. -/
theorem calculate_score_zero_on_negative_time (v : Validator)
    (r : ResponseOutput) (target rt : ℚ) (hrt : rt < 0) (hto : 0 < v.timeout) :
    1 < speed_score v rt ∧ calculate_score v r target rt = 0 := by
  have hss : 1 < speed_score v rt := by
    simp only [speed_score]
    rw [if_neg (not_lt.mpr (le_of_lt (lt_trans hrt hto)))]
    have hneg : rt / v.timeout < 0 := div_neg_of_neg_of_pos hrt hto
    linarith
  exact ⟨hss, calculate_score_zero_of_oob v r target rt
    (Or.inr (Or.inl (fun hc => absurd hss (not_lt.mpr hc.2))))⟩

/-- Witness for C10 at response_time -1 with the default configuration. -/
theorem calculate_score_zero_on_negative_time_witness :
    1 < speed_score (initValidator (9/10)) (-1) ∧
    calculate_score (initValidator (9/10)) ⟨[⟨1⟩], 0⟩ 1 (-1) = 0 :=
  calculate_score_zero_on_negative_time (initValidator (9/10)) ⟨[⟨1⟩], 0⟩ 1 (-1)
    (by norm_num) (by norm_num [initValidator])

/-- C7: when the engines list is empty the distance term defaults to 1,
and if the other two sub-scores are within [0, 1] the result is
0.7 + 0.2 · speed_score + 0.1 · engine_score. -/
theorem calculate_score_empty_engines (v : Validator) (r : ResponseOutput)
    (target rt : ℚ) (heng : r.engines = [])
    (hs : 0 ≤ speed_score v rt ∧ speed_score v rt ≤ 1)
    (he : 0 ≤ engine_score v r ∧ engine_score v r ≤ 1) :
    distance_score target r = 1 ∧
    calculate_score v r target rt =
      0.7 + 0.2 * speed_score v rt + 0.1 * engine_score v r := by
  have hd : distance_score target r = 1 := by
    simp [distance_score, heng]
  have hdpair : 0 ≤ distance_score target r ∧ distance_score target r ≤ 1 := by
    rw [hd]
    norm_num
  have hcond1 : ¬(¬(0 ≤ distance_score target r ∧ distance_score target r ≤ 1) ∨
      ¬(0 ≤ speed_score v rt ∧ speed_score v rt ≤ 1) ∨
      ¬(0 ≤ engine_score v r ∧ engine_score v r ≤ 1)) := by
    push_neg
    exact ⟨hdpair, hs, he⟩
  obtain ⟨hblo, hbhi⟩ := blend_mem_unit hdpair hs he
  have hcond2 : ¬(1 < 0.7 * distance_score target r + 0.2 * speed_score v rt +
      0.1 * engine_score v r ∨
      0.7 * distance_score target r + 0.2 * speed_score v rt +
      0.1 * engine_score v r < 0) := by
    rintro (hgt | hlt) <;> linarith
  refine ⟨hd, ?_⟩
  simp only [calculate_score]
  rw [if_neg hcond1, if_neg hcond2, hd]
  ring

/-- Witness for C7: empty engines, one top-level key, response_time 2
against the default configuration give score 0.7 + 0.2·(5/6) + 0.1·(1/3). -/
theorem calculate_score_empty_engines_witness :
    distance_score 1 (⟨[], 0⟩ : ResponseOutput) = 1 ∧
    calculate_score (initValidator (9/10)) ⟨[], 0⟩ 1 2 =
      0.7 + 0.2 * speed_score (initValidator (9/10)) 2 +
        0.1 * engine_score (initValidator (9/10)) ⟨[], 0⟩ :=
  calculate_score_empty_engines (initValidator (9/10)) ⟨[], 0⟩ 1 2 rfl
    (by norm_num [speed_score, initValidator])
    (by norm_num [engine_score, initValidator, ResponseOutput.dictLen])

/-! ### Per-slot behaviour of the score update -/

/-- The update for a pair writes the EMA of the old slot value and the
round score into the pair's own slot. -/
theorem process_one_apply_self (v : Validator) (t : ℚ) (s : Nat → ℚ)
    (p : Nat × SynapseResponse) :
    process_one v t s p p.1 =
      v.alpha * s p.1 + (1 - v.alpha) * round_score v t p.2 := by
  rcases p with ⟨uid, out, pt⟩
  cases out <;> simp [process_one, round_score]

/-- The update for a pair leaves every other slot unchanged. -/
theorem process_one_apply_ne (v : Validator) (t : ℚ) (s : Nat → ℚ)
    (p : Nat × SynapseResponse) (j : Nat) (h : p.1 ≠ j) :
    process_one v t s p j = s j := by
  rcases p with ⟨uid, out, pt⟩
  cases out <;> simp [process_one, Function.update_noteq (Ne.symm h)]

/-- A slot whose UID occurs in none of the pairs is untouched by the
whole fold. -/
theorem foldl_process_apply_not_mem (v : Validator) (t : ℚ)
    (pairs : List (Nat × SynapseResponse)) (s : Nat → ℚ) (j : Nat)
    (h : j ∉ pairs.map Prod.fst) :
    pairs.foldl (process_one v t) s j = s j := by
  induction pairs generalizing s with
  | nil => rfl
  | cons q rest ih =>
      simp only [List.map_cons, List.mem_cons] at h
      push_neg at h
      rw [List.foldl_cons, ih _ h.2,
        process_one_apply_ne v t s q j (fun hq => h.1 hq.symm)]

/-- With pairwise-distinct UIDs, the final value of a processed pair's slot
is the EMA of its initial value and that pair's round score. -/
theorem foldl_process_apply_mem (v : Validator) (t : ℚ)
    (pairs : List (Nat × SynapseResponse)) (s : Nat → ℚ)
    (hnd : (pairs.map Prod.fst).Nodup) (p : Nat × SynapseResponse)
    (hp : p ∈ pairs) :
    pairs.foldl (process_one v t) s p.1 =
      v.alpha * s p.1 + (1 - v.alpha) * round_score v t p.2 := by
  revert hnd hp
  induction pairs generalizing s with
  | nil =>
      intro hnd hp
      cases hp
  | cons q rest ih =>
      intro hnd hp
      simp only [List.map_cons, List.nodup_cons] at hnd
      rw [List.foldl_cons]
      rcases List.mem_cons.mp hp with rfl | hmem
      · rw [foldl_process_apply_not_mem v t rest _ _ hnd.1,
          process_one_apply_self]
      · have hne : q.1 ≠ p.1 := by
          intro he
          exact hnd.1 (he ▸ List.mem_map_of_mem Prod.fst hmem)
        rw [ih (process_one v t s q) hnd.2 hmem,
          process_one_apply_ne v t s q p.1 hne]

/-- C5: with distinct UIDs and lists of equal length, process_responses
writes alpha · old + (1 − alpha) · round into each processed identity's
slot, where the round score is 0 for an empty response (no calculator
call) and the calculator's result otherwise. -/
theorem process_responses_ema_update (v : Validator) (uids : List Nat)
    (b : Bool) (resps : List SynapseResponse) (scores : Nat → ℚ)
    (hnd : uids.Nodup) (hlen : uids.length = resps.length)
    (p : Nat × SynapseResponse) (hp : p ∈ uids.zip resps) :
    process_responses v uids b resps scores p.1 =
      v.alpha * scores p.1 + (1 - v.alpha) * round_score v (target_of b) p.2 ∧
    (∀ pt : ℚ, round_score v (target_of b) ⟨none, pt⟩ = 0) ∧
    (∀ out pt, round_score v (target_of b) ⟨some out, pt⟩ =
      calculate_score v out (target_of b) pt) := by
  have hmap : (uids.zip resps).map Prod.fst = uids :=
    List.map_fst_zip uids resps (le_of_eq hlen)
  have hnd' : ((uids.zip resps).map Prod.fst).Nodup := by
    rw [hmap]
    exact hnd
  exact ⟨foldl_process_apply_mem v (target_of b) (uids.zip resps) scores hnd' p hp,
    fun _ => rfl, fun _ _ => rfl⟩

/-- Witness for C5 at the spec's scenario: one empty response, old score
0.5, alpha 0.9, final slot value 0.45. -/
theorem process_responses_ema_update_witness :
    process_responses (initValidator (9/10)) [7] false [⟨none, 0⟩]
      (fun _ => 1/2) 7 = 9/20 := by
  have h := (process_responses_ema_update (initValidator (9/10)) [7] false
    [⟨none, 0⟩] (fun _ => 1/2) (by simp) rfl (7, ⟨none, 0⟩) (by simp)).1
  norm_num [round_score, initValidator] at h
  exact h

/-! ### The unit-interval invariant -/

/-- An EMA of two values of [0, 1] with a smoothing factor in [0, 1]
stays within [0, 1]. -/
theorem ema_mem_unit {a x y : ℚ} (ha : 0 ≤ a ∧ a ≤ 1) (hx : 0 ≤ x ∧ x ≤ 1)
    (hy : 0 ≤ y ∧ y ≤ 1) :
    0 ≤ a * x + (1 - a) * y ∧ a * x + (1 - a) * y ≤ 1 := by
  obtain ⟨ha0, ha1⟩ := ha
  obtain ⟨hx0, hx1⟩ := hx
  obtain ⟨hy0, hy1⟩ := hy
  constructor <;> nlinarith

/-- Every per-round score is within [0, 1]. -/
theorem round_score_mem_unit (v : Validator) (t : ℚ) (resp : SynapseResponse) :
    0 ≤ round_score v t resp ∧ round_score v t resp ≤ 1 := by
  rcases resp with ⟨out, pt⟩
  cases out with
  | none => simp [round_score]
  | some o => simpa [round_score] using calculate_score_mem_unit v o t pt

/-- One score update preserves the pointwise unit-interval invariant. -/
theorem process_one_preserves_unit (v : Validator) (t : ℚ) (s : Nat → ℚ)
    (p : Nat × SynapseResponse) (ha : 0 ≤ v.alpha ∧ v.alpha ≤ 1)
    (hs : ∀ j, 0 ≤ s j ∧ s j ≤ 1) :
    ∀ j, 0 ≤ process_one v t s p j ∧ process_one v t s p j ≤ 1 := by
  intro j
  by_cases hj : p.1 = j
  · rw [← hj, process_one_apply_self]
    exact ema_mem_unit ha (hs p.1) (round_score_mem_unit v t p.2)
  · rw [process_one_apply_ne v t s p j hj]
    exact hs j

/-- The fold over a whole round's pairs preserves the invariant. -/
theorem foldl_process_preserves_unit (v : Validator) (t : ℚ)
    (pairs : List (Nat × SynapseResponse)) (s : Nat → ℚ)
    (ha : 0 ≤ v.alpha ∧ v.alpha ≤ 1) (hs : ∀ j, 0 ≤ s j ∧ s j ≤ 1) :
    ∀ j, 0 ≤ pairs.foldl (process_one v t) s j ∧
      pairs.foldl (process_one v t) s j ≤ 1 := by
  revert hs
  induction pairs generalizing s with
  | nil =>
      intro hs
      exact hs
  | cons q rest ih =>
      intro hs
      rw [List.foldl_cons]
      exact ih (process_one v t s q) (process_one_preserves_unit v t s q ha hs)

/-- run_rounds preserves the invariant from any in-range state. -/
theorem run_rounds_preserves_unit (v : Validator) (rounds : List Round)
    (s : Nat → ℚ) (ha : 0 ≤ v.alpha ∧ v.alpha ≤ 1)
    (hs : ∀ j, 0 ≤ s j ∧ s j ≤ 1) :
    ∀ j, 0 ≤ run_rounds v rounds s j ∧ run_rounds v rounds s j ≤ 1 := by
  revert hs
  induction rounds generalizing s with
  | nil =>
      intro hs
      exact hs
  | cons rd rest ih =>
      intro hs
      exact ih _ (foldl_process_preserves_unit v _ _ s ha hs)

/-- C6: with alpha in [0, 1], every process_responses step preserves the
unit-interval invariant of the score state, and after any sequence of
rounds from the zero-initialized state every slot is still within [0, 1]. -/
theorem scores_stay_in_unit_interval (v : Validator)
    (ha : 0 ≤ v.alpha ∧ v.alpha ≤ 1) :
    (∀ (uids : List Nat) (b : Bool) (resps : List SynapseResponse)
        (s : Nat → ℚ), (∀ j, 0 ≤ s j ∧ s j ≤ 1) →
        ∀ j, 0 ≤ process_responses v uids b resps s j ∧
          process_responses v uids b resps s j ≤ 1) ∧
    (∀ (rounds : List Round) (j : Nat),
        0 ≤ run_rounds v rounds initial_scores j ∧
        run_rounds v rounds initial_scores j ≤ 1) := by
  constructor
  · intro uids b resps s hs
    exact foldl_process_preserves_unit v (target_of b) (uids.zip resps) s ha hs
  · intro rounds j
    exact run_rounds_preserves_unit v rounds initial_scores ha
      (fun _ => by norm_num [initial_scores]) j

/-- Witness for C6 after one round holding one non-empty and one empty
response, read at slot 0. -/
theorem scores_stay_in_unit_interval_witness :
    0 ≤ run_rounds (initValidator (9/10))
        [⟨[0, 1], true, [⟨some ⟨[⟨9/10⟩], 0⟩, 2⟩, ⟨none, 0⟩]⟩]
        initial_scores 0 ∧
    run_rounds (initValidator (9/10))
        [⟨[0, 1], true, [⟨some ⟨[⟨9/10⟩], 0⟩, 2⟩, ⟨none, 0⟩]⟩]
        initial_scores 0 ≤ 1 :=
  (scores_stay_in_unit_interval (initValidator (9/10))
    (by norm_num [initValidator])).2
    [⟨[0, 1], true, [⟨some ⟨[⟨9/10⟩], 0⟩, 2⟩, ⟨none, 0⟩]⟩] 0

/-- C8: the EMA update is the identity on the stored score when
alpha = 1, whatever the round input, and with alpha = 0 it discards all
history, writing exactly the round score. -/
theorem ema_identity_at_alpha_extremes (v : Validator) (t : ℚ) (s : Nat → ℚ)
    (p : Nat × SynapseResponse) (j : Nat) :
    (v.alpha = 1 → process_one v t s p j = s j) ∧
    (v.alpha = 0 → process_one v t s p p.1 = round_score v t p.2) := by
  constructor
  · intro h1
    by_cases hj : p.1 = j
    · rw [← hj, process_one_apply_self, h1]
      ring
    · exact process_one_apply_ne v t s p j hj
  · intro h0
    rw [process_one_apply_self, h0]
    ring

/-- Witness for C8: with alpha 1 the update leaves a slot unchanged, with
alpha 0 it writes the round score. -/
theorem ema_identity_at_alpha_extremes_witness :
    process_one (Validator.mk 3 12 1) 1 (fun _ => 1/2) (3, ⟨none, 0⟩) 3 =
      (fun _ => (1:ℚ)/2) 3 ∧
    process_one (Validator.mk 3 12 0) 1 (fun _ => 1/2) (3, ⟨none, 0⟩) 3 =
      round_score (Validator.mk 3 12 0) 1 ⟨none, 0⟩ :=
  ⟨(ema_identity_at_alpha_extremes (Validator.mk 3 12 1) 1 (fun _ => 1/2)
      (3, ⟨none, 0⟩) 3).1 rfl,
    (ema_identity_at_alpha_extremes (Validator.mk 3 12 0) 1 (fun _ => 1/2)
      (3, ⟨none, 0⟩) 3).2 rfl⟩

/-! ### Commutation of per-identity updates -/

/-- Both branches of the update are one write of the EMA value into the
pair's slot. -/
theorem process_one_eq_update (v : Validator) (t : ℚ) (s : Nat → ℚ)
    (p : Nat × SynapseResponse) :
    process_one v t s p = Function.update s p.1
      (v.alpha * s p.1 + (1 - v.alpha) * round_score v t p.2) := by
  rcases p with ⟨uid, out, pt⟩
  cases out <;> simp [process_one, round_score]

/-- Updates for two pairs with distinct UIDs commute. -/
theorem process_one_comm (v : Validator) (t : ℚ)
    (p q : Nat × SynapseResponse) (s : Nat → ℚ) (h : p.1 ≠ q.1) :
    process_one v t (process_one v t s p) q =
      process_one v t (process_one v t s q) p := by
  rw [process_one_eq_update v t s p, process_one_eq_update v t s q,
    process_one_eq_update, process_one_eq_update,
    Function.update_noteq (Ne.symm h), Function.update_noteq h]
  exact Function.update_comm h _ _ _

/-- C9: over a round whose UIDs are pairwise distinct, the per-identity
updates may be applied in any order: permuting the zipped UID/response
list leaves the final score state unchanged, and each update reads only
its own identity's slot. -/
theorem process_responses_order_independent (v : Validator) (b : Bool)
    (uids uids' : List Nat) (resps resps' : List SynapseResponse)
    (s : Nat → ℚ)
    (hnd : ((uids.zip resps).map Prod.fst).Nodup)
    (hperm : (uids.zip resps).Perm (uids'.zip resps')) :
    process_responses v uids b resps s = process_responses v uids' b resps' s ∧
    (∀ p : Nat × SynapseResponse, ∀ s₁ s₂ : Nat → ℚ, s₁ p.1 = s₂ p.1 →
      process_one v (target_of b) s₁ p p.1 =
        process_one v (target_of b) s₂ p p.1) := by
  constructor
  · unfold process_responses
    apply hperm.foldl_eq'
    intro x hx y hy z
    by_cases hxy : x.1 = y.1
    · have hxyeq : x = y := List.inj_on_of_nodup_map hnd hx hy hxy
      rw [hxyeq]
    · exact process_one_comm v (target_of b) x y z hxy
  · intro p s₁ s₂ h12
    rw [process_one_eq_update, process_one_eq_update, Function.update_same,
      Function.update_same, h12]

/-- Witness for C9: swapping the two entries of a two-miner round gives
the same final score state. -/
theorem process_responses_order_independent_witness :
    process_responses (initValidator (9/10)) [0, 1] true
        [⟨none, 0⟩, ⟨some ⟨[⟨1⟩], 0⟩, 2⟩] (fun _ => 0) =
      process_responses (initValidator (9/10)) [1, 0] true
        [⟨some ⟨[⟨1⟩], 0⟩, 2⟩, ⟨none, 0⟩] (fun _ => 0) :=
  (process_responses_order_independent (initValidator (9/10)) true [0, 1]
    [1, 0] [⟨none, 0⟩, ⟨some ⟨[⟨1⟩], 0⟩, 2⟩] [⟨some ⟨[⟨1⟩], 0⟩, 2⟩, ⟨none, 0⟩]
    (fun _ => 0) (by simp)
    (by exact List.Perm.swap _ _ _)).1

end LlmDefender
